import Mathlib

/-!
Shallow embedding of the zorpheus Discord bot's cover-art resolution and
deferred-interaction logic (src/app/commands/cover.ts, countdown.ts,
register.ts, src/app/api/interactions/route.ts).

External collaborators (fetch transport, the Last.fm / iTunes / MusicBrainz
HTTP APIs, the Vibrant colour library, Unicode NFD normalization, and the
Vercel KV store) are modelled as explicit oracle parameters gathered in an
`Env` record; the logic translated from the source operates over those
oracles and produces the ordered list of network actions it performs.
-/

namespace Zorpheus

/-- Whether the first character list is an initial segment of the second. -/
def startsWith : List Char → List Char → Bool
  | [], _ => true
  | _ :: _, [] => false
  | a :: as, b :: bs => a == b && startsWith as bs

/-- Whether `needle` occurs contiguously inside the second list. -/
def hasInfix (needle : List Char) : List Char → Bool
  | [] => needle.isEmpty
  | c :: cs => startsWith needle (c :: cs) || hasInfix needle cs

/-- JS `String.prototype.includes`: substring containment. -/
def includes (s sub : String) : Bool := hasInfix sub.data s.data

/-- Value of a decimal digit string, as computed by `parseInt(-, 10)`. -/
def digitsToNat (ds : List Char) : Nat := ds.foldl (fun n c => n * 10 + (c.toNat - 48)) 0

/-- Try to match the regex `(\d+)x\d+` anchored at the start of the character
list: a maximal digit run, then a literal x, then at least one digit.
Returns the numeric value of the first capture group. -/
def matchDimAt (cs : List Char) : Option Nat :=
  let ds := cs.takeWhile Char.isDigit
  if ds.isEmpty then none
  else
    match cs.dropWhile Char.isDigit with
    | 'x' :: d :: _ => if d.isDigit then some (digitsToNat ds) else none
    | _ => none

/-- First match of the regex `(\d+)x\d+` in the character list (JS
`url.match(...)` scanning positions left to right; the greedy digit run
never backtracks into a successful match, so maximal runs are faithful). -/
def findDimToken : List Char → Option Nat
  | [] => none
  | c :: cs =>
    match matchDimAt (c :: cs) with
    | some n => some n
    | none => findDimToken cs

/-- Translation of `getImageQualityScore` (cover.ts lines 176-193).
JS falsiness of the argument (null or empty string) yields 0. -/
def getImageQualityScore (url : Option String) : Nat :=
  match url with
  | none => 0
  | some u =>
    if u = "" then 0
    else if includes u "coverartarchive.org" then 5000
    else
      match findDimToken u.data with
      | some n => n
      | none =>
        if includes u "/i/u/" then
          if includes u "300x300" then 300
          else if includes u "174s" then 174
          else 100
        else 100

/-- Quality score of a non-null URL string. -/
def scoreS (u : String) : Nat := getImageQualityScore (some u)

/-- Try to match the regex `\/\d+x\d+\//` anchored at the start: a slash,
digits, x, digits, slash. On success returns the remainder after the
trailing slash. -/
def matchSlashDimAt : List Char → Option (List Char)
  | '/' :: cs =>
    let ds1 := cs.takeWhile Char.isDigit
    if ds1.isEmpty then none
    else
      match cs.dropWhile Char.isDigit with
      | 'x' :: cs2 =>
        let ds2 := cs2.takeWhile Char.isDigit
        if ds2.isEmpty then none
        else
          match cs2.dropWhile Char.isDigit with
          | '/' :: rest => some rest
          | _ => none
      | _ => none
  | _ => none

/-- JS `url.replace(/\/\d+x\d+\//, "/1000x1000/")`: rewrite the first
slash-delimited dimension segment to `/1000x1000/` (cover.ts lines 307, 413). -/
def replaceDimAux : List Char → List Char
  | [] => []
  | c :: cs =>
    match matchSlashDimAt (c :: cs) with
    | some rest => "/1000x1000/".data ++ rest
    | none => c :: replaceDimAux cs

/-- String-level wrapper for the dimension-segment rewrite. -/
def replaceDimS (s : String) : String := ⟨replaceDimAux s.data⟩

/-- Ordering used by `validUrls.sort((a, b) => score(b) - score(a))`:
`a` may be placed before `b` when its score is at least `b`'s. -/
def rankRel (a b : String) : Prop := scoreS b ≤ scoreS a

instance : DecidableRel rankRel := fun a b => inferInstanceAs (Decidable (scoreS b ≤ scoreS a))

instance : IsTotal String rankRel := ⟨fun a b => Nat.le_total (scoreS b) (scoreS a)⟩

instance : IsTrans String rankRel := ⟨fun _ _ _ hab hbc => Nat.le_trans hbc hab⟩

/-- Stable descending sort by quality score. ECMAScript `Array.prototype.sort`
is required to be stable, and a stable sort for a total preorder is unique,
so stable insertion sort is a faithful model of the JS sort call. -/
def rankImages (l : List String) : List String := l.insertionSort rankRel

/-- JS truthiness filter for an optional string: null and the empty string
are falsy. -/
def truthyStr (o : Option String) : Option String :=
  match o with
  | some s => if s = "" then none else some s
  | none => none

/-- One entry of a Last.fm `image` array: a size tag and a `#text` URL. -/
structure SizedImage where
  size : String
  text : String
deriving DecidableEq

/-- Translation of the image-selection chain
`image.find(extralarge)?.['#text'] || image.find(large)?.['#text'] || image[image.length - 1]?.['#text']`
(cover.ts lines 273-275 and 374-376), with JS `||` treating the empty
string as falsy. -/
def pickImage (imgs : List SizedImage) : Option String :=
  match truthyStr ((imgs.find? (fun i => i.size == "extralarge")).map (fun i => i.text)) with
  | some s => some s
  | none =>
    match truthyStr ((imgs.find? (fun i => i.size == "large")).map (fun i => i.text)) with
    | some s => some s
    | none => (imgs.getLast?).map (fun i => i.text)

/-- Outcome of the HEAD liveness probe performed by `isValidImageUrl`:
the abort timer fires, the fetch rejects for another network reason, or a
response with some status code arrives. -/
inductive ProbeOutcome
  | timeout
  | netError
  | status (code : Nat)
deriving DecidableEq

/-- The literal Last.fm placeholder URL rejected by exact match (cover.ts line 34). -/
def placeholderUrl : String :=
  "https://lastfm.freetls.fastly.net/i/u/300x300/2a96cbd8b46e442fc41c2b86b821562f.png"

/-- Translation of `isValidImageUrl` (cover.ts lines 28-63) over a probe
oracle. JS `!url` rejects null and the empty string; the placeholder is
rejected by exact match; a timeout or network error is caught and yields
false; otherwise `response.ok` demands a 200-299 status. -/
def isValidImageUrl (probe : String → ProbeOutcome) (url : Option String) : Bool :=
  match url with
  | none => false
  | some u =>
    if u = "" then false
    else if u = placeholderUrl then false
    else
      match probe u with
      | .status c => decide (200 ≤ c ∧ c ≤ 299)
      | _ => false

/-- Body of an outbound webhook/interaction message, reduced to the fields
the claims are about. -/
inductive Payload
  | embedImage (url : String)
  | content (msg : String)
  | progressEmbed (desc : String)
deriving DecidableEq

/-- One outbound network action performed by a handler, in program order. -/
inductive Ev
  | ack
  | complete (p : Payload)
  | lastfmSearchCall (query : String)
  | lastfmRecentCall (user : String)
  | itunesCall (artist album : String)
  | mbCall (artist album : String)
  | probeCall (url : String)
  | colorCall (url : String)
deriving DecidableEq

/-- Network actions performed by one `isValidImageUrl` call: the HEAD fetch
happens only when the URL is non-null, non-empty and not the placeholder. -/
def probeEvents (url : Option String) : List Ev :=
  match url with
  | none => []
  | some u =>
    if u = "" then []
    else if u = placeholderUrl then []
    else [.probeCall u]

/-- An `album.search` match from Last.fm: artist, album name, image array. -/
structure AlbumResult where
  artist : String
  name : String
  images : List SizedImage
deriving DecidableEq

/-- Outcome of one Last.fm `album.search` request: the fetch or JSON parse
throws, the response carries an error or no match, or a match is found. -/
inductive LfSearch
  | throw
  | noMatch
  | found (a : AlbumResult)
deriving DecidableEq

/-- A recent-tracks entry from Last.fm. -/
structure Track where
  artistText : String
  name : String
  albumText : String
  images : List SizedImage
  nowplaying : Bool
deriving DecidableEq

/-- Outcome of one Last.fm `user.getrecenttracks` request. -/
inductive RecentTracks
  | throw
  | noTracks
  | found (t : Track)
deriving DecidableEq

/-- Oracles for all external collaborators of the cover command. -/
structure Env where
  lastfmSearch : String → LfSearch
  recentTracks : String → RecentTracks
  itunes : String → String → Option String
  musicbrainz : String → String → Option String
  probe : String → ProbeOutcome
  color : String → Option Nat
  norm : String → String

/-- Translation of `findCoverArtSequentially` (cover.ts lines 137-155):
iTunes first, then MusicBrainz, returning the first candidate that passes
the liveness check. -/
def findCoverArtSequentially (env : Env) (artist album : String) : Option String × List Ev :=
  let it := env.itunes artist album
  if isValidImageUrl env.probe it then
    (it, .itunesCall artist album :: probeEvents it)
  else
    let mb := env.musicbrainz artist album
    if isValidImageUrl env.probe mb then
      (mb, .itunesCall artist album :: probeEvents it ++ .mbCall artist album :: probeEvents mb)
    else
      (none, .itunesCall artist album :: probeEvents it ++ .mbCall artist album :: probeEvents mb)

/-- Translation of `findAllCoverArtSources` (cover.ts lines 160-171):
gather the Last.fm URL plus both providers, filtering falsy entries. -/
def findAllCoverArtSources (env : Env) (artist album : String) (lastfmUrl : Option String) :
    List String × List Ev :=
  ([lastfmUrl, env.itunes artist album, env.musicbrainz artist album].filterMap truthyStr,
   [.itunesCall artist album, .mbCall artist album])

/-- The validity-filter loop of `getBestImageUrl` (cover.ts lines 199-204):
probe each candidate in order, keeping those that pass. -/
def collectValid (probe : String → ProbeOutcome) : List String → List String × List Ev
  | [] => ([], [])
  | u :: rest =>
    let r := collectValid probe rest
    if isValidImageUrl probe (some u) then (u :: r.1, probeEvents (some u) ++ r.2)
    else (r.1, probeEvents (some u) ++ r.2)

/-- Translation of `getBestImageUrl` (cover.ts lines 198-213): filter by
liveness, sort by quality score descending (stable), return the head. -/
def getBestImageUrl (env : Env) (urls : List String) : Option String × List Ev :=
  let r := collectValid env.probe urls
  match rankImages r.1 with
  | [] => (none, r.2)
  | best :: _ => (some best, r.2)

/-- The art-resolution step shared by both cover handlers (cover.ts lines
277-289 and 380-391): high-quality mode gathers all sources and ranks them,
default mode uses the Last.fm URL when usable and otherwise falls back
sequentially. -/
def resolveArt (env : Env) (hq : Bool) (artist album : String) (lfUrl : Option String) :
    Option String × List Ev :=
  if hq then
    let srcs := findAllCoverArtSources env artist album lfUrl
    let best := getBestImageUrl env srcs.1
    (best.1, srcs.2 ++ best.2)
  else
    if isValidImageUrl env.probe lfUrl then (lfUrl, probeEvents lfUrl)
    else
      let seq := findCoverArtSequentially env artist album
      (seq.1, probeEvents lfUrl ++ seq.2)

/-- Generic error text of the album-search catch block (cover.ts line 342). -/
def searchErrMsg : String := "An error occurred while processing your request."

/-- Generic error text of the scrobble catch block (cover.ts line 436). -/
def scrobbleErrMsg : String := "An error occurred while fetching data from Last.fm."

/-- Failure message when only one query form was attempted (cover.ts line 326). -/
def failMsgOne (q : String) : String := "Could not find album art for `" ++ q ++ "`."

/-- Failure message when the normalized form was also attempted (cover.ts line 328). -/
def failMsgBoth (q n : String) : String :=
  "Could not find album art for `" ++ q ++ "` (also tried `" ++ n ++ "`)."

/-- Message when a user has no recent tracks (cover.ts line 365). -/
def noTracksMsg (user : String) : String :=
  "Could not find any recent tracks for user `" ++ user ++ "`."

/-- Message when no art was found for a scrobbled track (cover.ts line 396). -/
def noArtMsg (track artist : String) : String :=
  "Could not find album art for **" ++ track ++ "** by **" ++ artist ++ "**."

/-- Result of the query loop of `handleAlbumSearch`: an exception escaped to
the outer catch, no art was found for any query, or art was found. -/
inductive SearchOutcome
  | thrown
  | notFound
  | foundArt (url artist name : String)
deriving DecidableEq

/-- The `for (const query of searchQueries)` loop of `handleAlbumSearch`
(cover.ts lines 257-296): each query is sent to Last.fm; a thrown fetch
aborts to the catch block; a miss continues; a hit resolves art and breaks
when a usable URL was found. -/
def searchLoop (env : Env) (hq : Bool) : List String → SearchOutcome × List Ev
  | [] => (.notFound, [])
  | q :: rest =>
    match env.lastfmSearch q with
    | .throw => (.thrown, [.lastfmSearchCall q])
    | .noMatch =>
      let k1 := searchLoop env hq rest
      (k1.1, .lastfmSearchCall q :: k1.2)
    | .found a =>
      let art := resolveArt env hq a.artist a.name (pickImage a.images)
      match art.1 with
      | some url => (.foundArt url a.artist a.name, .lastfmSearchCall q :: art.2)
      | none =>
        let k2 := searchLoop env hq rest
        (k2.1, .lastfmSearchCall q :: (art.2 ++ k2.2))

/-- The query list built at cover.ts lines 249-254: the original query,
plus the diacritic-stripped form when it differs. -/
def searchQueriesOf (env : Env) (q0 : String) : List String :=
  if env.norm q0 ≠ q0 then [q0, env.norm q0] else [q0]

/-- Translation of `handleAlbumSearch` (cover.ts lines 236-346) as the list
of network actions it performs: deferred acknowledgment, the query loop,
then exactly one terminal webhook PATCH. The success branch requires the
found URL, artist and album name to all be truthy, fetches the dominant
colour, and rewrites the dimension segment of the surfaced URL. -/
def handleAlbumSearch (env : Env) (q0 : String) (hq : Bool) : List Ev :=
  let n := env.norm q0
  let res := searchLoop env hq (searchQueriesOf env q0)
  .ack :: res.2 ++
    match res.1 with
    | .thrown => [.complete (.content searchErrMsg)]
    | .notFound =>
      [.complete (.content (if n ≠ q0 then failMsgBoth q0 n else failMsgOne q0))]
    | .foundArt url artist name =>
      if artist ≠ "" ∧ name ≠ "" then
        [.colorCall url, .complete (.embedImage (replaceDimS url))]
      else
        [.complete (.content (if n ≠ q0 then failMsgBoth q0 n else failMsgOne q0))]

/-- Translation of `handleUserScrobble` (cover.ts lines 348-440) as the list
of network actions it performs. -/
def handleUserScrobble (env : Env) (user : String) (hq : Bool) : List Ev :=
  .ack :: .lastfmRecentCall user ::
    match env.recentTracks user with
    | .throw => [.complete (.content scrobbleErrMsg)]
    | .noTracks => [.complete (.content (noTracksMsg user))]
    | .found t =>
      let art := resolveArt env hq t.artistText t.albumText (pickImage t.images)
      art.2 ++
        match art.1 with
        | none => [.complete (.content (noArtMsg t.name t.artistText))]
        | some url => [.colorCall url, .complete (.embedImage (replaceDimS url))]

/-- The Vercel KV collaborator, modelled per its get/set interface as a
function from keys to optional values. -/
abbrev Store := String → Option String

/-- Collaborator `kv.get`. -/
def kvGet (s : Store) (k : String) : Option String := s k

/-- Collaborator `kv.set`: point update, overwriting any previous value. -/
def kvSet (s : Store) (k v : String) : Store := fun k2 => if k2 = k then some v else s k2

/-- JSON response bodies returned synchronously by handlers, reduced to the
fields the claims are about. -/
inductive JsonBody
  | pong
  | message (content : String) (ephemeral : Bool)
  | updateMessage (title desc : String)
deriving DecidableEq

/-- An HTTP response returned by a route or handler. -/
inductive HttpResp
  | json (body : JsonBody)
  | text (status : Nat) (body : String)
  | empty (status : Nat)
deriving DecidableEq

/-- Translation of `handleRegister` (register.ts lines 12-25): store the
username under the Discord user id and confirm. -/
def handleRegister (store : Store) (userId username : String) : Store × HttpResp :=
  (kvSet store userId username,
   .json (.message ("✅ Success! Your Last.fm username has been saved as `" ++ username ++ "`.")
     false))

/-- A typed slash-command option value. -/
inductive OptVal
  | str (s : String)
  | bool (b : Bool)
deriving DecidableEq

/-- A named slash-command option. -/
structure CmdOption where
  name : String
  value : OptVal
deriving DecidableEq

/-- The parts of a `/cover` interaction the handler reads. -/
structure CoverInteraction where
  options : List CmdOption
  userId : String
deriving DecidableEq

/-- The `searchOption?.value` truthiness test of cover.ts line 450: the
first option named search, when it carries a non-empty string. -/
def coverSearchValue (i : CoverInteraction) : Option String :=
  match i.options.find? (fun o => o.name == "search") with
  | some o =>
    match o.value with
    | .str s => if s = "" then none else some s
    | .bool _ => none
  | none => none

/-- The `hqOnlyOption?.value ?? false` computation of cover.ts lines 446-447. -/
def hqOf (i : CoverInteraction) : Bool :=
  match i.options.find? (fun o => o.name == "hq_only") with
  | some o =>
    match o.value with
    | .bool b => b
    | .str _ => false
  | none => false

/-- The registration prompt shown to unregistered users (cover.ts line 463). -/
def registerPrompt : String :=
  "To see your last played track, you must register your Last.fm username with the `/register` command first. Or, use the `/cover search:<album name>` option to find an album."

/-- Translation of `handleCover` (cover.ts lines 442-471): search mode when
a non-empty search option is present, otherwise the registry is consulted
for the invoking user. -/
def handleCover (env : Env) (store : Store) (i : CoverInteraction) : HttpResp × List Ev :=
  match coverSearchValue i with
  | some s => (.empty 204, handleAlbumSearch env s (hqOf i))
  | none =>
    match kvGet store i.userId with
    | none => (.json (.message registerPrompt true), [])
    | some user => (.empty 204, handleUserScrobble env user (hqOf i))

/-- Countdown progress embed for second `i` (countdown.ts lines 100-104). -/
def cdProgressPayload (i : Nat) : Payload := .progressEmbed ("**" ++ toString i ++ "**")

/-- Final countdown embed (countdown.ts lines 116-120). -/
def cdGoPayload : Payload := .progressEmbed "**Go!**"

/-- Countdown error text (countdown.ts line 131). -/
def cdErrMsg : String := "An error occurred during the countdown."

/-- The six webhook PATCH payloads of a full countdown run: 5 down to 1,
then the final message. -/
def cdSeq : List Payload := [cdProgressPayload 5, cdProgressPayload 4, cdProgressPayload 3,
  cdProgressPayload 2, cdProgressPayload 1, cdGoPayload]

/-- Run the countdown PATCH sequence against a transport oracle: `ok k`
tells whether the k-th PATCH attempt succeeds; the first failure throws to
the catch block. Returns the attempted calls and whether all succeeded. -/
def runPatches (ok : Nat → Bool) : List Payload → Nat → List Ev × Bool
  | [], _ => ([], true)
  | p :: ps, k =>
    if ok k then
      let r := runPatches ok ps (k + 1)
      (.complete p :: r.1, r.2)
    else ([.complete p], false)

/-- Translation of the `start_countdown` branch of
`handleCountdownInteraction` (countdown.ts lines 76-142): deferred
acknowledgment first, then the PATCH loop, with the catch block issuing a
final error PATCH when any attempt failed. -/
def handleCountdownStart (ok : Nat → Bool) : List Ev :=
  .ack ::
    (let r := runPatches ok cdSeq 0
     r.1 ++ if r.2 then [] else [.complete (.content cdErrMsg)])

/-- Translation of `handleCountdownInteraction` (countdown.ts lines 56-146):
cancel updates the message immediately, start runs the deferred countdown,
anything else is an explicit 400. -/
def handleCountdownInteraction (ok : Nat → Bool) (customId : String) : HttpResp × List Ev :=
  if customId = "cancel_countdown" then
    (.json (.updateMessage "Countdown Cancelled" "The countdown was cancelled by the user."), [])
  else if customId = "start_countdown" then
    (.empty 204, handleCountdownStart ok)
  else (.text 400 "Unknown button interaction", [])

/-- A verified inbound interaction, reduced to what the dispatcher reads. -/
inductive Interaction
  | ping
  | command (name : String)
  | component (customId : String)
deriving DecidableEq

/-- The command names with cases in the dispatcher switch
(route.ts lines 244-268). -/
def commandNames : List String :=
  ["ping", "register", "cover", "fm", "countdown", "profile", "chart", "serverchart", "rc", "dev"]

/-- Translation of the dispatcher `POST` (route.ts lines 229-279), with the
routed command handlers abstracted as an oracle: signature failure is a 401,
a handshake ping gets a pong, known command names are routed, unknown names
get an explicit 400, and component interactions go to the countdown handler. -/
def routePOST (valid : Bool) (i : Interaction) (handler : String → HttpResp)
    (ok : Nat → Bool) : HttpResp :=
  if valid = false then .text 401 "Invalid request signature"
  else
    match i with
    | .ping => .json .pong
    | .command name =>
      if name = "ping" then handler name
      else if name = "register" then handler name
      else if name = "cover" then handler name
      else if name = "fm" then handler name
      else if name = "countdown" then handler name
      else if name = "profile" then handler name
      else if name = "chart" then handler name
      else if name = "serverchart" then handler name
      else if name = "rc" then handler name
      else if name = "dev" then handler name
      else .text 400 "Unknown command"
    | .component cid => (handleCountdownInteraction ok cid).1

/-- Whether an event is a completion call (a PATCH/POST to the interaction
webhook). -/
def isCompletionEv : Ev → Bool
  | .complete _ => true
  | _ => false

/-- Whether an event is a provider query or liveness probe issued while
resolving art. -/
def isWorkEv : Ev → Bool
  | .itunesCall _ _ => true
  | .mbCall _ _ => true
  | .probeCall _ => true
  | _ => false

/-- The query carried by a Last.fm album-search call, if any. -/
def evQuery : Ev → Option String
  | .lastfmSearchCall q => some q
  | _ => none

/-- The Last.fm album-search queries issued in a trace, in order. -/
def lastfmQueries (tr : List Ev) : List String := tr.filterMap evQuery

/-- Whether the last network action of a trace is a completion call. -/
def terminalIsCompletion (tr : List Ev) : Bool :=
  match tr.getLast? with
  | some e => isCompletionEv e
  | none => false

/-- Substring presence stated structurally over the character lists. -/
def containsStr (s sub : String) : Prop := ∃ l r : List Char, s.data = l ++ sub.data ++ r

/-! ### Event classification lemmas -/

theorem workEv_not_completion {e : Ev} (h : isWorkEv e = true) : isCompletionEv e = false := by
  cases e <;> simp_all [isWorkEv, isCompletionEv]

theorem workEv_no_query {e : Ev} (h : isWorkEv e = true) : evQuery e = none := by
  cases e <;> simp_all [isWorkEv, evQuery]

theorem probeEvents_work {url : Option String} {e : Ev} (h : e ∈ probeEvents url) :
    isWorkEv e = true := by
  cases url with
  | none => simp [probeEvents] at h
  | some u =>
    by_cases h1 : u = ""
    · simp [probeEvents, h1] at h
    · by_cases h2 : u = placeholderUrl
      · simp [probeEvents, h1, h2] at h
      · simp [probeEvents, h1, h2] at h
        subst h
        rfl

theorem collectValid_snd (probe : String → ProbeOutcome) (u : String) (rest : List String) :
    (collectValid probe (u :: rest)).2 = probeEvents (some u) ++ (collectValid probe rest).2 := by
  simp only [collectValid]
  split <;> rfl

theorem collectValid_work (probe : String → ProbeOutcome) :
    ∀ (l : List String) {e : Ev}, e ∈ (collectValid probe l).2 → isWorkEv e = true
  | [], e => by intro h; simp [collectValid] at h
  | u :: rest, e => by
    intro h
    rw [collectValid_snd] at h
    rcases List.mem_append.mp h with h | h
    · exact probeEvents_work h
    · exact collectValid_work probe rest h

theorem getBestImageUrl_snd (env : Env) (urls : List String) :
    (getBestImageUrl env urls).2 = (collectValid env.probe urls).2 := by
  simp only [getBestImageUrl]
  split <;> rfl

theorem findCoverArtSequentially_work {env : Env} {artist album : String} {e : Ev}
    (h : e ∈ (findCoverArtSequentially env artist album).2) : isWorkEv e = true := by
  simp only [findCoverArtSequentially] at h
  split at h
  · rcases List.mem_cons.mp h with h | h
    · subst h; rfl
    · exact probeEvents_work h
  · split at h <;>
    · rcases List.mem_cons.mp h with h | h
      · subst h; rfl
      · rcases List.mem_append.mp h with h | h
        · exact probeEvents_work h
        · rcases List.mem_cons.mp h with h | h
          · subst h; rfl
          · exact probeEvents_work h

theorem resolveArt_snd_hq (env : Env) (artist album : String) (lf : Option String) :
    (resolveArt env true artist album lf).2
      = .itunesCall artist album :: .mbCall artist album ::
          (getBestImageUrl env (findAllCoverArtSources env artist album lf).1).2 := rfl

theorem resolveArt_fst_hq (env : Env) (artist album : String) (lf : Option String) :
    (resolveArt env true artist album lf).1
      = (getBestImageUrl env (findAllCoverArtSources env artist album lf).1).1 := rfl

theorem getBestImageUrl_fst (env : Env) (urls : List String) :
    (getBestImageUrl env urls).1 = (rankImages (collectValid env.probe urls).1).head? := by
  simp only [getBestImageUrl]
  cases hc : rankImages (collectValid env.probe urls).1 <;> simp

theorem resolveArt_work {env : Env} {hq : Bool} {artist album : String} {lf : Option String}
    {e : Ev} (h : e ∈ (resolveArt env hq artist album lf).2) : isWorkEv e = true := by
  cases hq with
  | true =>
    rw [resolveArt_snd_hq, getBestImageUrl_snd] at h
    rcases List.mem_cons.mp h with h | h
    · subst h; rfl
    rcases List.mem_cons.mp h with h | h
    · subst h; rfl
    exact collectValid_work env.probe _ h
  | false =>
    by_cases hv : isValidImageUrl env.probe lf = true
    · have hsnd : (resolveArt env false artist album lf).2 = probeEvents lf := by
        simp [resolveArt, hv]
      rw [hsnd] at h
      exact probeEvents_work h
    · have hsnd : (resolveArt env false artist album lf).2
          = probeEvents lf ++ (findCoverArtSequentially env artist album).2 := by
        simp [resolveArt, hv]
      rw [hsnd] at h
      rcases List.mem_append.mp h with h | h
      · exact probeEvents_work h
      · exact findCoverArtSequentially_work h

theorem searchLoop_events (env : Env) (hq : Bool) :
    ∀ (qs : List String) {e : Ev}, e ∈ (searchLoop env hq qs).2 →
      isWorkEv e = true ∨ ∃ q, e = .lastfmSearchCall q
  | [], e => by intro h; simp [searchLoop] at h
  | q :: rest, e => by
    intro h
    cases hsq : env.lastfmSearch q with
    | throw =>
      simp only [searchLoop, hsq] at h
      simp at h
      exact Or.inr ⟨q, h⟩
    | noMatch =>
      simp only [searchLoop, hsq] at h
      rcases List.mem_cons.mp h with h | h
      · exact Or.inr ⟨q, h⟩
      · exact searchLoop_events env hq rest h
    | found a =>
      simp only [searchLoop, hsq] at h
      split at h
      · rcases List.mem_cons.mp h with h | h
        · exact Or.inr ⟨q, h⟩
        · exact Or.inl (resolveArt_work h)
      · rcases List.mem_cons.mp h with h | h
        · exact Or.inr ⟨q, h⟩
        · rcases List.mem_append.mp h with h | h
          · exact Or.inl (resolveArt_work h)
          · exact searchLoop_events env hq rest h

theorem searchLoop_no_completion {env : Env} {hq : Bool} {qs : List String} {e : Ev}
    (h : e ∈ (searchLoop env hq qs).2) : isCompletionEv e = false := by
  rcases searchLoop_events env hq qs h with h | ⟨q, rfl⟩
  · exact workEv_not_completion h
  · rfl

/-! ### Validity of resolved art -/

theorem collectValid_mem (probe : String → ProbeOutcome) :
    ∀ (l : List String) {u : String}, u ∈ (collectValid probe l).1 →
      isValidImageUrl probe (some u) = true
  | [], u => by intro h; simp [collectValid] at h
  | v :: rest, u => by
    intro h
    simp only [collectValid] at h
    split at h
    · rcases List.mem_cons.mp h with h | h
      · subst h; assumption
      · exact collectValid_mem probe rest h
    · exact collectValid_mem probe rest h

theorem rankImages_head_mem {l : List String} {best : String} {t : List String}
    (h : rankImages l = best :: t) : best ∈ l := by
  have hm : best ∈ rankImages l := by rw [h]; exact List.mem_cons_self best t
  exact (List.perm_insertionSort rankRel l).subset hm

theorem resolveArt_valid {env : Env} {hq : Bool} {artist album : String} {lf : Option String}
    {url : String} (h : (resolveArt env hq artist album lf).1 = some url) :
    isValidImageUrl env.probe (some url) = true := by
  cases hq with
  | true =>
    rw [resolveArt_fst_hq, getBestImageUrl_fst] at h
    cases hc : rankImages (collectValid env.probe
        (findAllCoverArtSources env artist album lf).1).1 with
    | nil => rw [hc] at h; simp at h
    | cons b t =>
      rw [hc] at h
      simp only [List.head?_cons, Option.some.injEq] at h
      subst h
      exact collectValid_mem env.probe _ (rankImages_head_mem hc)
  | false =>
    by_cases hv : isValidImageUrl env.probe lf = true
    · have hfst : (resolveArt env false artist album lf).1 = lf := by simp [resolveArt, hv]
      rw [hfst] at h
      rw [h] at hv
      exact hv
    · have hfst : (resolveArt env false artist album lf).1
          = (findCoverArtSequentially env artist album).1 := by
        simp [resolveArt, hv]
      rw [hfst] at h
      by_cases hit : isValidImageUrl env.probe (env.itunes artist album) = true
      · have h2 : (findCoverArtSequentially env artist album).1 = env.itunes artist album := by
          simp [findCoverArtSequentially, hit]
        rw [h2] at h
        rw [h] at hit
        exact hit
      · by_cases hmb : isValidImageUrl env.probe (env.musicbrainz artist album) = true
        · have h2 : (findCoverArtSequentially env artist album).1
              = env.musicbrainz artist album := by
            simp [findCoverArtSequentially, hit, hmb]
          rw [h2] at h
          rw [h] at hmb
          exact hmb
        · have h2 : (findCoverArtSequentially env artist album).1 = none := by
            simp [findCoverArtSequentially, hit, hmb]
          rw [h2] at h
          simp at h

theorem searchLoop_found_valid (env : Env) (hq : Bool) :
    ∀ (qs : List String) {url artist name : String},
      (searchLoop env hq qs).1 = .foundArt url artist name →
      isValidImageUrl env.probe (some url) = true
  | [], url, artist, name => by intro h; simp [searchLoop] at h
  | q :: rest, url, artist, name => by
    intro h
    cases hsq : env.lastfmSearch q with
    | throw => simp [searchLoop, hsq] at h
    | noMatch =>
      simp only [searchLoop, hsq] at h
      exact searchLoop_found_valid env hq rest h
    | found a =>
      cases hres : (resolveArt env hq a.artist a.name (pickImage a.images)).1 with
      | some u =>
        simp [searchLoop, hsq, hres] at h
        obtain ⟨h1, h2, h3⟩ := h
        subst h1
        exact resolveArt_valid hres
      | none =>
        simp only [searchLoop, hsq, hres] at h
        exact searchLoop_found_valid env hq rest h

/-! ### Trace decomposition: each deferring handler acknowledges first and
finishes with a completion call -/

theorem handleAlbumSearch_decomp (env : Env) (q0 : String) (hq : Bool) :
    ∃ pre p, handleAlbumSearch env q0 hq = (.ack :: pre) ++ [.complete p] ∧
      ∀ e ∈ pre, isCompletionEv e = false := by
  cases ho : (searchLoop env hq (searchQueriesOf env q0)).1 with
  | thrown =>
    refine ⟨(searchLoop env hq (searchQueriesOf env q0)).2, .content searchErrMsg, ?_, ?_⟩
    · simp [handleAlbumSearch, ho]
    · intro e he; exact searchLoop_no_completion he
  | notFound =>
    refine ⟨(searchLoop env hq (searchQueriesOf env q0)).2,
      .content (if env.norm q0 ≠ q0 then failMsgBoth q0 (env.norm q0) else failMsgOne q0),
      ?_, ?_⟩
    · simp [handleAlbumSearch, ho]
    · intro e he; exact searchLoop_no_completion he
  | foundArt url artist name =>
    by_cases hc : artist ≠ "" ∧ name ≠ ""
    · refine ⟨(searchLoop env hq (searchQueriesOf env q0)).2 ++ [.colorCall url],
        .embedImage (replaceDimS url), ?_, ?_⟩
      · simp [handleAlbumSearch, ho, hc]
      · intro e he
        rcases List.mem_append.mp he with he | he
        · exact searchLoop_no_completion he
        · simp at he; subst he; rfl
    · refine ⟨(searchLoop env hq (searchQueriesOf env q0)).2,
        .content (if env.norm q0 ≠ q0 then failMsgBoth q0 (env.norm q0) else failMsgOne q0),
        ?_, ?_⟩
      · simp [handleAlbumSearch, ho, hc]
      · intro e he; exact searchLoop_no_completion he

theorem handleUserScrobble_decomp (env : Env) (user : String) (hq : Bool) :
    ∃ pre p, handleUserScrobble env user hq = (.ack :: pre) ++ [.complete p] ∧
      ∀ e ∈ pre, isCompletionEv e = false := by
  cases ht : env.recentTracks user with
  | throw =>
    refine ⟨[.lastfmRecentCall user], .content scrobbleErrMsg, ?_, ?_⟩
    · simp [handleUserScrobble, ht]
    · intro e he; simp at he; subst he; rfl
  | noTracks =>
    refine ⟨[.lastfmRecentCall user], .content (noTracksMsg user), ?_, ?_⟩
    · simp [handleUserScrobble, ht]
    · intro e he; simp at he; subst he; rfl
  | found t =>
    cases hres : (resolveArt env hq t.artistText t.albumText (pickImage t.images)).1 with
    | none =>
      refine ⟨.lastfmRecentCall user ::
          (resolveArt env hq t.artistText t.albumText (pickImage t.images)).2,
        .content (noArtMsg t.name t.artistText), ?_, ?_⟩
      · simp [handleUserScrobble, ht, hres]
      · intro e he
        rcases List.mem_cons.mp he with he | he
        · subst he; rfl
        · exact workEv_not_completion (resolveArt_work he)
    | some url =>
      refine ⟨.lastfmRecentCall user ::
          ((resolveArt env hq t.artistText t.albumText (pickImage t.images)).2
            ++ [.colorCall url]),
        .embedImage (replaceDimS url), ?_, ?_⟩
      · simp [handleUserScrobble, ht, hres]
      · intro e he
        rcases List.mem_cons.mp he with he | he
        · subst he; rfl
        · rcases List.mem_append.mp he with he | he
          · exact workEv_not_completion (resolveArt_work he)
          · simp at he; subst he; rfl

theorem runPatches_decomp (ok : Nat → Bool) :
    ∀ (ps : List Payload) (k : Nat), ps ≠ [] →
      ∃ pre p, (runPatches ok ps k).1 = pre ++ [.complete p]
  | [], k => by intro h; exact absurd rfl h
  | p :: ps, k => by
    intro _
    by_cases hk : ok k = true
    · cases ps with
      | nil => exact ⟨[], p, by simp [runPatches, hk]⟩
      | cons p2 ps2 =>
        obtain ⟨pre, q, hpre⟩ := runPatches_decomp ok (p2 :: ps2) (k + 1) (by simp)
        refine ⟨.complete p :: pre, q, ?_⟩
        have hstep : (runPatches ok (p :: p2 :: ps2) k).1
            = .complete p :: (runPatches ok (p2 :: ps2) (k + 1)).1 := by
          simp only [runPatches]
          rw [if_pos hk]
        rw [hstep, hpre]
        rfl
    · exact ⟨[], p, by simp [runPatches, hk]⟩

theorem handleCountdownStart_decomp (ok : Nat → Bool) :
    ∃ pre p, handleCountdownStart ok = (.ack :: pre) ++ [.complete p] := by
  cases hs : (runPatches ok cdSeq 0).2 with
  | false =>
    exact ⟨(runPatches ok cdSeq 0).1, .content cdErrMsg, by simp [handleCountdownStart, hs]⟩
  | true =>
    obtain ⟨pre, p, hpre⟩ := runPatches_decomp ok cdSeq 0 (by simp [cdSeq])
    exact ⟨pre, p, by simp [handleCountdownStart, hs, hpre]⟩

theorem decomp_head {pre : List Ev} {p : Payload} {tr : List Ev}
    (h : tr = (.ack :: pre) ++ [.complete p]) : tr.head? = some .ack := by
  subst h; rfl

theorem decomp_terminal {pre : List Ev} {p : Payload} {tr : List Ev}
    (h : tr = (.ack :: pre) ++ [.complete p]) : terminalIsCompletion tr = true := by
  subst h
  unfold terminalIsCompletion
  rw [List.getLast?_concat]
  rfl

theorem decomp_count {pre : List Ev} {p : Payload} {tr : List Ev}
    (h : tr = (.ack :: pre) ++ [.complete p])
    (hpre : ∀ e ∈ pre, isCompletionEv e = false) :
    tr.countP isCompletionEv = 1 := by
  subst h
  have h0 : pre.countP isCompletionEv = 0 :=
    List.countP_eq_zero.mpr (by intro e he; simp [hpre e he])
  simp [List.countP_append, List.countP_cons, h0, isCompletionEv]

/-- C2: for every deferring command interaction (cover search mode, cover
scrobble mode, and the countdown start button), the deferred acknowledgment
is the first network action (hence it precedes every completion call), the
terminal network action is a completion call, and the cover handlers issue
exactly one completion call (the countdown issues at least one, one per
progress edit, the last of which is the terminal action) — on the success,
not-found and error paths alike. -/
theorem C2_ack_before_completion_and_completion_terminal :
    (∀ (env : Env) (q0 : String) (hq : Bool),
      (handleAlbumSearch env q0 hq).head? = some .ack
      ∧ terminalIsCompletion (handleAlbumSearch env q0 hq) = true
      ∧ (handleAlbumSearch env q0 hq).countP isCompletionEv = 1)
    ∧ (∀ (env : Env) (user : String) (hq : Bool),
      (handleUserScrobble env user hq).head? = some .ack
      ∧ terminalIsCompletion (handleUserScrobble env user hq) = true
      ∧ (handleUserScrobble env user hq).countP isCompletionEv = 1)
    ∧ (∀ ok : Nat → Bool,
      (handleCountdownStart ok).head? = some .ack
      ∧ terminalIsCompletion (handleCountdownStart ok) = true
      ∧ 1 ≤ (handleCountdownStart ok).countP isCompletionEv) := by
  refine ⟨?_, ?_, ?_⟩
  · intro env q0 hq
    obtain ⟨pre, p, htr, hpre⟩ := handleAlbumSearch_decomp env q0 hq
    exact ⟨decomp_head htr, decomp_terminal htr, decomp_count htr hpre⟩
  · intro env user hq
    obtain ⟨pre, p, htr, hpre⟩ := handleUserScrobble_decomp env user hq
    exact ⟨decomp_head htr, decomp_terminal htr, decomp_count htr hpre⟩
  · intro ok
    obtain ⟨pre, p, htr⟩ := handleCountdownStart_decomp ok
    refine ⟨decomp_head htr, decomp_terminal htr, ?_⟩
    rw [htr, List.countP_append]
    have h1 : List.countP isCompletionEv [Ev.complete p] = 1 := by
      simp [List.countP_cons, isCompletionEv]
    omega

/-- C7: whenever the long-running work after the acknowledgment throws (the
Last.fm fetch in either cover mode, or a webhook PATCH during the
countdown), the handler's outer catch still issues a terminal completion
call carrying the generic user-visible error message. -/
theorem C7_thrown_work_still_completes_with_error_message :
    (∀ (env : Env) (q0 : String) (hq : Bool),
      (searchLoop env hq (searchQueriesOf env q0)).1 = .thrown →
      (handleAlbumSearch env q0 hq).getLast? = some (.complete (.content searchErrMsg)))
    ∧ (∀ (env : Env) (user : String) (hq : Bool),
      env.recentTracks user = .throw →
      (handleUserScrobble env user hq).getLast? = some (.complete (.content scrobbleErrMsg)))
    ∧ (∀ ok : Nat → Bool,
      (runPatches ok cdSeq 0).2 = false →
      (handleCountdownStart ok).getLast? = some (.complete (.content cdErrMsg))) := by
  refine ⟨?_, ?_, ?_⟩
  · intro env q0 hq h
    have htr : handleAlbumSearch env q0 hq
        = (.ack :: (searchLoop env hq (searchQueriesOf env q0)).2)
          ++ [.complete (.content searchErrMsg)] := by
      simp [handleAlbumSearch, h]
    rw [htr, List.getLast?_concat]
  · intro env user hq h
    have htr : handleUserScrobble env user hq
        = [.ack, .lastfmRecentCall user] ++ [.complete (.content scrobbleErrMsg)] := by
      simp [handleUserScrobble, h]
    rw [htr, List.getLast?_concat]
  · intro ok h
    have htr : handleCountdownStart ok
        = (.ack :: (runPatches ok cdSeq 0).1) ++ [.complete (.content cdErrMsg)] := by
      simp [handleCountdownStart, h]
    rw [htr, List.getLast?_concat]

/-- An environment in which every Last.fm request throws, used to witness
the error-path guarantees at a concrete input. -/
def envThrow : Env :=
  { lastfmSearch := fun _ => .throw,
    recentTracks := fun _ => .throw,
    itunes := fun _ _ => none,
    musicbrainz := fun _ _ => none,
    probe := fun _ => .netError,
    color := fun _ => none,
    norm := fun s => s }

/-- Witness for C7 at concrete throwing environments. -/
theorem C7_witness :
    (handleAlbumSearch envThrow "Abbey Road" false).getLast?
      = some (.complete (.content searchErrMsg))
    ∧ (handleUserScrobble envThrow "alice" false).getLast?
      = some (.complete (.content scrobbleErrMsg))
    ∧ (handleCountdownStart (fun _ => false)).getLast?
      = some (.complete (.content cdErrMsg)) :=
  ⟨C7_thrown_work_still_completes_with_error_message.1 envThrow "Abbey Road" false (by decide),
   C7_thrown_work_still_completes_with_error_message.2.1 envThrow "alice" false (by decide),
   C7_thrown_work_still_completes_with_error_message.2.2 (fun _ => false) (by decide)⟩

/-! ### C3: surfaced URLs versus the liveness check -/

/-- A Last.fm art URL whose liveness probe succeeds. -/
def c3Url : String := "https://lastfm.example.org/i/u/300x300/abc.png"

/-- The dimension-rewritten form of that URL, never probed. -/
def c3UrlHi : String := "https://lastfm.example.org/i/u/1000x1000/abc.png"

/-- Environment for the C3 counterexample: the Last.fm search returns an
album whose extralarge art URL probes fine, while every other URL
(including the rewritten one) fails its probe. -/
def envC3 : Env :=
  { lastfmSearch := fun _ => .found ⟨"ArtistA", "AlbumB", [⟨"extralarge", c3Url⟩]⟩,
    recentTracks := fun _ => .noTracks,
    itunes := fun _ _ => none,
    musicbrainz := fun _ _ => none,
    probe := fun s => if s = c3Url then .status 200 else .netError,
    color := fun _ => none,
    norm := fun s => s }

/-- Counterexample to C3 as stated: the exact URL string surfaced in the
delivered embed is the post-selection rewrite of the validated candidate;
that surfaced string itself never passed (and was never given) the
liveness check — `isValidImageUrl` is false for it and no probe of it
occurs in the trace. -/
theorem C3_counterexample :
    (handleAlbumSearch envC3 "q" false).getLast? = some (.complete (.embedImage c3UrlHi))
    ∧ isValidImageUrl envC3.probe (some c3UrlHi) = false
    ∧ Ev.probeCall c3UrlHi ∉ handleAlbumSearch envC3 "q" false := by
  decide

/-- C3 (amended): every cover-art URL surfaced in a delivered embed is the
dimension-segment rewrite of a candidate URL that passed the liveness
check; candidates failing the check are never surfaced, but the rewritten
string itself is not re-validated. -/
theorem C3_amended_surfaced_url_is_rewrite_of_validated :
    (∀ (env : Env) (q0 : String) (hq : Bool) (u : String),
      Ev.complete (.embedImage u) ∈ handleAlbumSearch env q0 hq →
      ∃ sel, isValidImageUrl env.probe (some sel) = true ∧ u = replaceDimS sel)
    ∧ (∀ (env : Env) (user : String) (hq : Bool) (u : String),
      Ev.complete (.embedImage u) ∈ handleUserScrobble env user hq →
      ∃ sel, isValidImageUrl env.probe (some sel) = true ∧ u = replaceDimS sel) := by
  constructor
  · intro env q0 hq u hmem
    cases ho : (searchLoop env hq (searchQueriesOf env q0)).1 with
    | thrown =>
      have htr : handleAlbumSearch env q0 hq
          = .ack :: (searchLoop env hq (searchQueriesOf env q0)).2
            ++ [.complete (.content searchErrMsg)] := by
        simp [handleAlbumSearch, ho]
      rw [htr] at hmem
      rcases List.mem_cons.mp hmem with h | h
      · simp at h
      rcases List.mem_append.mp h with h | h
      · have hn := searchLoop_no_completion h
        simp [isCompletionEv] at hn
      · simp at h
    | notFound =>
      have htr : handleAlbumSearch env q0 hq
          = .ack :: (searchLoop env hq (searchQueriesOf env q0)).2
            ++ [.complete (.content
                (if env.norm q0 ≠ q0 then failMsgBoth q0 (env.norm q0) else failMsgOne q0))] := by
        simp [handleAlbumSearch, ho]
      rw [htr] at hmem
      rcases List.mem_cons.mp hmem with h | h
      · simp at h
      rcases List.mem_append.mp h with h | h
      · have hn := searchLoop_no_completion h
        simp [isCompletionEv] at hn
      · simp at h
    | foundArt url artist name =>
      by_cases hc : artist ≠ "" ∧ name ≠ ""
      · have htr : handleAlbumSearch env q0 hq
            = .ack :: (searchLoop env hq (searchQueriesOf env q0)).2
              ++ [.colorCall url, .complete (.embedImage (replaceDimS url))] := by
          simp [handleAlbumSearch, ho, hc]
        rw [htr] at hmem
        rcases List.mem_cons.mp hmem with h | h
        · simp at h
        rcases List.mem_append.mp h with h | h
        · have hn := searchLoop_no_completion h
          simp [isCompletionEv] at hn
        · simp at h
          exact ⟨url, searchLoop_found_valid env hq _ ho, h⟩
      · have htr : handleAlbumSearch env q0 hq
            = .ack :: (searchLoop env hq (searchQueriesOf env q0)).2
              ++ [.complete (.content
                  (if env.norm q0 ≠ q0 then failMsgBoth q0 (env.norm q0) else failMsgOne q0))] := by
          simp [handleAlbumSearch, ho, hc]
        rw [htr] at hmem
        rcases List.mem_cons.mp hmem with h | h
        · simp at h
        rcases List.mem_append.mp h with h | h
        · have hn := searchLoop_no_completion h
          simp [isCompletionEv] at hn
        · simp at h
  · intro env user hq u hmem
    cases ht : env.recentTracks user with
    | throw =>
      have htr : handleUserScrobble env user hq
          = [.ack, .lastfmRecentCall user, .complete (.content scrobbleErrMsg)] := by
        simp [handleUserScrobble, ht]
      rw [htr] at hmem
      simp at hmem
    | noTracks =>
      have htr : handleUserScrobble env user hq
          = [.ack, .lastfmRecentCall user, .complete (.content (noTracksMsg user))] := by
        simp [handleUserScrobble, ht]
      rw [htr] at hmem
      simp at hmem
    | found t =>
      cases hres : (resolveArt env hq t.artistText t.albumText (pickImage t.images)).1 with
      | none =>
        have htr : handleUserScrobble env user hq
            = .ack :: .lastfmRecentCall user ::
                (resolveArt env hq t.artistText t.albumText (pickImage t.images)).2
              ++ [.complete (.content (noArtMsg t.name t.artistText))] := by
          simp [handleUserScrobble, ht, hres]
        rw [htr] at hmem
        rcases List.mem_cons.mp hmem with h | h
        · simp at h
        rcases List.mem_cons.mp h with h | h
        · simp at h
        rcases List.mem_append.mp h with h | h
        · have hn := workEv_not_completion (resolveArt_work h)
          simp [isCompletionEv] at hn
        · simp at h
      | some url =>
        have htr : handleUserScrobble env user hq
            = .ack :: .lastfmRecentCall user ::
                (resolveArt env hq t.artistText t.albumText (pickImage t.images)).2
              ++ [.colorCall url, .complete (.embedImage (replaceDimS url))] := by
          simp [handleUserScrobble, ht, hres]
        rw [htr] at hmem
        rcases List.mem_cons.mp hmem with h | h
        · simp at h
        rcases List.mem_cons.mp h with h | h
        · simp at h
        rcases List.mem_append.mp h with h | h
        · have hn := workEv_not_completion (resolveArt_work h)
          simp [isCompletionEv] at hn
        · simp at h
          exact ⟨url, resolveArt_valid hres, h⟩

/-- Witness for the amended C3 at the counterexample environment: the
surfaced URL there is indeed the rewrite of a validated candidate. -/
theorem C3_amended_witness :
    ∃ sel, isValidImageUrl envC3.probe (some sel) = true ∧ c3UrlHi = replaceDimS sel :=
  C3_amended_surfaced_url_is_rewrite_of_validated.1 envC3 "q" false c3UrlHi (by decide)

/-! ### C1: quality ranking of candidate URLs -/

theorem filter_score_orderedInsert (n : Nat) (a : String) (l : List String) :
    (List.orderedInsert rankRel a l).filter (fun u => scoreS u == n)
      = if scoreS a == n then a :: l.filter (fun u => scoreS u == n)
        else l.filter (fun u => scoreS u == n) := by
  induction l with
  | nil => simp [List.orderedInsert, List.filter_cons]
  | cons b t ih =>
    by_cases hr : rankRel a b
    · rw [List.orderedInsert_of_le rankRel t hr, List.filter_cons]
    · have hr' : ¬(scoreS b ≤ scoreS a) := hr
      have hlt : scoreS a < scoreS b := lt_of_not_le hr'
      have hoi : List.orderedInsert rankRel a (b :: t) = b :: List.orderedInsert rankRel a t := by
        simp only [List.orderedInsert]
        rw [if_neg hr]
      rw [hoi]
      by_cases hb : scoreS b = n
      · have ha : scoreS a ≠ n := by omega
        simp [List.filter_cons, ih, hb, ha]
      · by_cases ha : scoreS a = n
        · simp [List.filter_cons, ih, hb, ha]
        · simp [List.filter_cons, ih, hb, ha]

theorem filter_score_insertionSort (n : Nat) :
    ∀ l : List String,
      (rankImages l).filter (fun u => scoreS u == n) = l.filter (fun u => scoreS u == n)
  | [] => rfl
  | a :: t => by
    have hdef : rankImages (a :: t) = List.orderedInsert rankRel a (rankImages t) := rfl
    rw [hdef, filter_score_orderedInsert, filter_score_insertionSort n t, List.filter_cons]

/-- A non-archival candidate whose parsed dimension token exceeds the fixed
archival score. -/
def cexUrlHi : String := "https://images.example.com/6000x6000/cover.jpg"

/-- An archival (Cover Art Archive) candidate. -/
def cexUrlCaa : String := "https://coverartarchive.org/release/abc123/front.jpg"

/-- An environment in which every liveness probe succeeds. -/
def envAllOk : Env :=
  { lastfmSearch := fun _ => .noMatch,
    recentTracks := fun _ => .noTracks,
    itunes := fun _ _ => none,
    musicbrainz := fun _ _ => none,
    probe := fun _ => .status 200,
    color := fun _ => none,
    norm := fun s => s }

/-- Counterexample to C1 as stated: an archival candidate (fixed score 5000)
is NOT ranked above a non-archival candidate whose parsed dimension token is
6000 — the non-archival candidate wins the ranking and is returned as best,
so the archival candidate does not outrank all others regardless of parsed
resolution. -/
theorem C1_counterexample :
    includes cexUrlCaa "coverartarchive.org" = true
    ∧ includes cexUrlHi "coverartarchive.org" = false
    ∧ scoreS cexUrlCaa = 5000
    ∧ scoreS cexUrlHi = 6000
    ∧ rankImages [cexUrlHi, cexUrlCaa] = [cexUrlHi, cexUrlCaa]
    ∧ rankImages [cexUrlCaa, cexUrlHi] = [cexUrlHi, cexUrlCaa]
    ∧ (getBestImageUrl envAllOk [cexUrlHi, cexUrlCaa]).1 = some cexUrlHi := by
  decide

/-- C1 (amended): the ranking sorts usable candidates by quality score in
descending order, stably (candidates of equal score keep the provider query
order), where an archival-registry candidate receives the fixed score 5000
— and hence outranks every non-archival candidate whose score is below
5000, not unconditionally — a non-archival candidate with a parseable
pixel-dimension token scores that token's value, and a non-archival
candidate with no parseable token scores the constant 100 except for the
Last.fm 174s thumbnail pattern, which scores 174. -/
theorem C1_amended_ranking :
    ∀ l : List String,
      (rankImages l).Perm l
      ∧ List.Sorted rankRel (rankImages l)
      ∧ (∀ n : Nat, (rankImages l).filter (fun u => scoreS u == n)
          = l.filter (fun u => scoreS u == n))
      ∧ (∀ u : String, u ≠ "" → includes u "coverartarchive.org" = true → scoreS u = 5000)
      ∧ (∀ (u : String) (n : Nat), includes u "coverartarchive.org" = false →
          findDimToken u.data = some n → scoreS u = n)
      ∧ (∀ u : String, u ≠ "" → includes u "coverartarchive.org" = false →
          findDimToken u.data = none →
          scoreS u = if includes u "/i/u/" then
              (if includes u "300x300" then 300
               else if includes u "174s" then 174 else 100)
            else 100) := by
  intro l
  refine ⟨List.perm_insertionSort rankRel l, List.sorted_insertionSort rankRel l,
    fun n => filter_score_insertionSort n l, ?_, ?_, ?_⟩
  · intro u hne hcaa
    simp [scoreS, getImageQualityScore, hne, hcaa]
  · intro u n hcaa hdim
    by_cases hne : u = ""
    · subst hne
      have hnil : findDimToken "".data = none := rfl
      rw [hnil] at hdim
      simp at hdim
    · simp [scoreS, getImageQualityScore, hne, hcaa, hdim]
  · intro u hne hcaa hdim
    simp [scoreS, getImageQualityScore, hne, hcaa, hdim]

/-- A Last.fm 174s thumbnail URL with no parseable dimension token. -/
def url174 : String := "https://lastfm.freetls.fastly.net/i/u/174s/zz.png"

/-- Witness for the amended C1 at concrete URLs: the archival candidate
scores exactly 5000, the 6000x6000 candidate scores its parsed token, and
the 174s thumbnail scores 174. -/
theorem C1_amended_witness :
    scoreS cexUrlCaa = 5000 ∧ scoreS cexUrlHi = 6000 ∧ scoreS url174 = 174 := by
  refine ⟨(C1_amended_ranking []).2.2.2.1 cexUrlCaa (by decide) (by decide),
    (C1_amended_ranking []).2.2.2.2.1 cexUrlHi 6000 (by decide) (by decide), ?_⟩
  have h := (C1_amended_ranking []).2.2.2.2.2 url174 (by decide) (by decide) (by decide)
  rw [h]
  decide

/-! ### C4: sequential provider precedence -/

/-- Whether an event is a provider query (iTunes or MusicBrainz). -/
def isProviderQuery : Ev → Bool
  | .itunesCall _ _ => true
  | .mbCall _ _ => true
  | _ => false

theorem probeEvents_probe {url : Option String} {e : Ev} (h : e ∈ probeEvents url) :
    ∃ s, e = .probeCall s := by
  cases url with
  | none => simp [probeEvents] at h
  | some u =>
    by_cases h1 : u = ""
    · simp [probeEvents, h1] at h
    · by_cases h2 : u = placeholderUrl
      · simp [probeEvents, h1, h2] at h
      · simp [probeEvents, h1, h2] at h
        exact ⟨u, h⟩

/-- C4: in default (sequential) mode, a usable Last.fm URL is returned as-is
with no provider query at all; otherwise iTunes is queried first, then
MusicBrainz, and the first usable result is returned. -/
theorem C4_sequential_precedence :
    ∀ (env : Env) (artist album : String) (lfUrl : Option String),
      (isValidImageUrl env.probe lfUrl = true →
        resolveArt env false artist album lfUrl = (lfUrl, probeEvents lfUrl)
        ∧ ∀ e ∈ probeEvents lfUrl, isProviderQuery e = false)
      ∧ (isValidImageUrl env.probe lfUrl = false →
          isValidImageUrl env.probe (env.itunes artist album) = true →
          resolveArt env false artist album lfUrl
            = (env.itunes artist album,
               probeEvents lfUrl ++ .itunesCall artist album ::
                 probeEvents (env.itunes artist album)))
      ∧ (isValidImageUrl env.probe lfUrl = false →
          isValidImageUrl env.probe (env.itunes artist album) = false →
          isValidImageUrl env.probe (env.musicbrainz artist album) = true →
          resolveArt env false artist album lfUrl
            = (env.musicbrainz artist album,
               probeEvents lfUrl ++ .itunesCall artist album ::
                 (probeEvents (env.itunes artist album) ++ .mbCall artist album ::
                   probeEvents (env.musicbrainz artist album))))
      ∧ (isValidImageUrl env.probe lfUrl = false →
          isValidImageUrl env.probe (env.itunes artist album) = false →
          isValidImageUrl env.probe (env.musicbrainz artist album) = false →
          resolveArt env false artist album lfUrl
            = (none,
               probeEvents lfUrl ++ .itunesCall artist album ::
                 (probeEvents (env.itunes artist album) ++ .mbCall artist album ::
                   probeEvents (env.musicbrainz artist album)))) := by
  intro env artist album lfUrl
  refine ⟨?_, ?_, ?_, ?_⟩
  · intro hv
    constructor
    · simp [resolveArt, hv]
    · intro e he
      obtain ⟨s, rfl⟩ := probeEvents_probe he
      rfl
  · intro hv hit
    simp [resolveArt, findCoverArtSequentially, hv, hit]
  · intro hv hit hmb
    simp [resolveArt, findCoverArtSequentially, hv, hit, hmb]
  · intro hv hit hmb
    simp [resolveArt, findCoverArtSequentially, hv, hit, hmb]

/-- A URL whose probe succeeds in `envAllOk`. -/
def okUrl : String := "https://ok.example/art.png"

/-- A URL whose probe fails in the fallback environments below. -/
def badUrl : String := "https://bad.example/art.png"

/-- Environment in which only the iTunes candidate probes successfully. -/
def seqEnvItunes : Env :=
  { lastfmSearch := fun _ => .noMatch,
    recentTracks := fun _ => .noTracks,
    itunes := fun _ _ => some "https://itunes.example/100x100/a.jpg",
    musicbrainz := fun _ _ => some "https://caa.example/z.jpg",
    probe := fun s => if s = "https://itunes.example/100x100/a.jpg" then .status 200
      else .netError,
    color := fun _ => none,
    norm := fun s => s }

/-- Environment in which only the MusicBrainz candidate probes successfully. -/
def seqEnvMb : Env :=
  { lastfmSearch := fun _ => .noMatch,
    recentTracks := fun _ => .noTracks,
    itunes := fun _ _ => some "https://itunes.example/100x100/a.jpg",
    musicbrainz := fun _ _ => some "https://caa.example/z.jpg",
    probe := fun s => if s = "https://caa.example/z.jpg" then .status 200 else .netError,
    color := fun _ => none,
    norm := fun s => s }

/-- Witness for C4 at concrete environments covering all four scenarios. -/
theorem C4_witness :
    resolveArt envAllOk false "a" "b" (some okUrl) = (some okUrl, probeEvents (some okUrl))
    ∧ resolveArt seqEnvItunes false "a" "b" (some badUrl)
        = (seqEnvItunes.itunes "a" "b",
           probeEvents (some badUrl) ++ .itunesCall "a" "b" ::
             probeEvents (seqEnvItunes.itunes "a" "b"))
    ∧ resolveArt seqEnvMb false "a" "b" (some badUrl)
        = (seqEnvMb.musicbrainz "a" "b",
           probeEvents (some badUrl) ++ .itunesCall "a" "b" ::
             (probeEvents (seqEnvMb.itunes "a" "b") ++ .mbCall "a" "b" ::
               probeEvents (seqEnvMb.musicbrainz "a" "b")))
    ∧ resolveArt envThrow false "a" "b" (some badUrl)
        = (none,
           probeEvents (some badUrl) ++ .itunesCall "a" "b" ::
             (probeEvents (envThrow.itunes "a" "b") ++ .mbCall "a" "b" ::
               probeEvents (envThrow.musicbrainz "a" "b"))) :=
  ⟨((C4_sequential_precedence envAllOk "a" "b" (some okUrl)).1 (by decide)).1,
   (C4_sequential_precedence seqEnvItunes "a" "b" (some badUrl)).2.1 (by decide) (by decide),
   (C4_sequential_precedence seqEnvMb "a" "b" (some badUrl)).2.2.1
     (by decide) (by decide) (by decide),
   (C4_sequential_precedence envThrow "a" "b" (some badUrl)).2.2.2
     (by decide) (by decide) (by decide)⟩

/-! ### C5: the liveness check -/

/-- C5: `isValidImageUrl` rejects an absent URL, rejects the literal
placeholder by exact match, fails closed on a probe timeout or network
error, rejects non-2xx statuses, and accepts exactly the non-empty,
non-placeholder URLs whose probe completes with a 2xx status. -/
theorem C5_isValidImageUrl_spec :
    ∀ (probe : String → ProbeOutcome) (url : Option String),
      isValidImageUrl probe none = false
      ∧ isValidImageUrl probe (some placeholderUrl) = false
      ∧ (∀ u, probe u = .timeout → isValidImageUrl probe (some u) = false)
      ∧ (∀ u, probe u = .netError → isValidImageUrl probe (some u) = false)
      ∧ (∀ u c, probe u = .status c → ¬(200 ≤ c ∧ c ≤ 299) →
          isValidImageUrl probe (some u) = false)
      ∧ (isValidImageUrl probe url = true ↔
          ∃ u c, url = some u ∧ u ≠ "" ∧ u ≠ placeholderUrl ∧ probe u = .status c
            ∧ 200 ≤ c ∧ c ≤ 299) := by
  intro probe url
  refine ⟨rfl, ?_, ?_, ?_, ?_, ?_⟩
  · simp [isValidImageUrl]
  · intro u h
    by_cases h1 : u = ""
    · simp [isValidImageUrl, h1]
    · by_cases h2 : u = placeholderUrl
      · simp [isValidImageUrl, h1, h2]
      · simp [isValidImageUrl, h1, h2, h]
  · intro u h
    by_cases h1 : u = ""
    · simp [isValidImageUrl, h1]
    · by_cases h2 : u = placeholderUrl
      · simp [isValidImageUrl, h1, h2]
      · simp [isValidImageUrl, h1, h2, h]
  · intro u c h hnot
    by_cases h1 : u = ""
    · simp [isValidImageUrl, h1]
    · by_cases h2 : u = placeholderUrl
      · simp [isValidImageUrl, h1, h2]
      · simp [isValidImageUrl, h1, h2, h, hnot]
  · constructor
    · intro h
      cases url with
      | none => simp [isValidImageUrl] at h
      | some u =>
        by_cases h1 : u = ""
        · simp [isValidImageUrl, h1] at h
        · by_cases h2 : u = placeholderUrl
          · simp [isValidImageUrl, h1, h2] at h
          · cases hpu : probe u with
            | status c =>
              simp [isValidImageUrl, h1, h2, hpu] at h
              exact ⟨u, c, rfl, h1, h2, hpu, h.1, h.2⟩
            | timeout => simp [isValidImageUrl, h1, h2, hpu] at h
            | netError => simp [isValidImageUrl, h1, h2, hpu] at h
    · rintro ⟨u, c, rfl, h1, h2, hpu, hc1, hc2⟩
      simp [isValidImageUrl, h1, h2, hpu, hc1, hc2]

/-- Probe oracle for the C5 witness: timeout, network error, non-2xx and
2xx outcomes on distinct URLs. -/
def probeW : String → ProbeOutcome := fun s =>
  if s = "https://t.example/t.png" then .timeout
  else if s = "https://e.example/e.png" then .netError
  else if s = "https://n.example/n.png" then .status 404
  else .status 200

/-- Witness for C5 at concrete probe outcomes. -/
theorem C5_witness :
    isValidImageUrl probeW (some "https://t.example/t.png") = false
    ∧ isValidImageUrl probeW (some "https://e.example/e.png") = false
    ∧ isValidImageUrl probeW (some "https://n.example/n.png") = false
    ∧ isValidImageUrl probeW (some "https://y.example/y.png") = true :=
  ⟨(C5_isValidImageUrl_spec probeW none).2.2.1 _ (by decide),
   (C5_isValidImageUrl_spec probeW none).2.2.2.1 _ (by decide),
   (C5_isValidImageUrl_spec probeW none).2.2.2.2.1 _ 404 (by decide) (by decide),
   (C5_isValidImageUrl_spec probeW (some "https://y.example/y.png")).2.2.2.2.2.mpr
     ⟨"https://y.example/y.png", 200, rfl, by decide, by decide, by decide, by decide, by decide⟩⟩

/-! ### C6: diacritic-normalization fallback -/

theorem lastfmQueries_cons_search (q : String) (tr : List Ev) :
    lastfmQueries (.lastfmSearchCall q :: tr) = q :: lastfmQueries tr := by
  simp [lastfmQueries, List.filterMap_cons, evQuery]

theorem lastfmQueries_cons_other {e : Ev} (h : evQuery e = none) (tr : List Ev) :
    lastfmQueries (e :: tr) = lastfmQueries tr := by
  simp [lastfmQueries, List.filterMap_cons, h]

theorem lastfmQueries_append (a b : List Ev) :
    lastfmQueries (a ++ b) = lastfmQueries a ++ lastfmQueries b :=
  List.filterMap_append a b evQuery

theorem lastfmQueries_cons_ack (tr : List Ev) :
    lastfmQueries (.ack :: tr) = lastfmQueries tr := by
  apply lastfmQueries_cons_other
  rfl

theorem resolveArt_no_query (env : Env) (hq : Bool) (a b : String) (lf : Option String) :
    lastfmQueries (resolveArt env hq a b lf).2 = [] := by
  rw [lastfmQueries]
  refine List.filterMap_eq_nil_iff.mpr ?_
  intro e he
  exact workEv_no_query (resolveArt_work he)

theorem searchLoop_single_query (env : Env) (hq : Bool) (q : String) :
    lastfmQueries (searchLoop env hq [q]).2 = [q] := by
  cases hsq : env.lastfmSearch q with
  | throw =>
    have h2 : (searchLoop env hq [q]).2 = [.lastfmSearchCall q] := by simp [searchLoop, hsq]
    rw [h2]
    rfl
  | noMatch =>
    have h2 : (searchLoop env hq [q]).2 = [.lastfmSearchCall q] := by simp [searchLoop, hsq]
    rw [h2]
    rfl
  | found a =>
    cases hres : (resolveArt env hq a.artist a.name (pickImage a.images)).1 with
    | some u =>
      have h2 : (searchLoop env hq [q]).2
          = .lastfmSearchCall q :: (resolveArt env hq a.artist a.name (pickImage a.images)).2 := by
        simp [searchLoop, hsq, hres]
      rw [h2, lastfmQueries_cons_search, resolveArt_no_query]
    | none =>
      have h2 : (searchLoop env hq [q]).2
          = .lastfmSearchCall q :: (resolveArt env hq a.artist a.name (pickImage a.images)).2 := by
        simp [searchLoop, hsq, hres]
      rw [h2, lastfmQueries_cons_search, resolveArt_no_query]

theorem lastfmQueries_completion_tail (evs : List Ev) (p : Payload) :
    lastfmQueries (evs ++ [.complete p]) = lastfmQueries evs := by
  rw [lastfmQueries_append, show lastfmQueries [Ev.complete p] = [] from rfl, List.append_nil]

theorem lastfmQueries_color_tail (evs : List Ev) (u : String) (p : Payload) :
    lastfmQueries (evs ++ [.colorCall u, .complete p]) = lastfmQueries evs := by
  rw [lastfmQueries_append, show lastfmQueries [Ev.colorCall u, Ev.complete p] = [] from rfl,
    List.append_nil]

theorem handleAlbumSearch_queries (env : Env) (q0 : String) (hq : Bool) :
    lastfmQueries (handleAlbumSearch env q0 hq)
      = lastfmQueries (searchLoop env hq (searchQueriesOf env q0)).2 := by
  cases ho : (searchLoop env hq (searchQueriesOf env q0)).1 with
  | thrown =>
    have htr : handleAlbumSearch env q0 hq
        = .ack :: ((searchLoop env hq (searchQueriesOf env q0)).2
          ++ [.complete (.content searchErrMsg)]) := by
      simp [handleAlbumSearch, ho]
    rw [htr, lastfmQueries_cons_ack, lastfmQueries_completion_tail]
  | notFound =>
    have htr : handleAlbumSearch env q0 hq
        = .ack :: ((searchLoop env hq (searchQueriesOf env q0)).2
          ++ [.complete (.content
              (if env.norm q0 ≠ q0 then failMsgBoth q0 (env.norm q0) else failMsgOne q0))]) := by
      simp [handleAlbumSearch, ho]
    rw [htr, lastfmQueries_cons_ack, lastfmQueries_completion_tail]
  | foundArt url artist name =>
    by_cases hc : artist ≠ "" ∧ name ≠ ""
    · have htr : handleAlbumSearch env q0 hq
          = .ack :: ((searchLoop env hq (searchQueriesOf env q0)).2
            ++ [.colorCall url, .complete (.embedImage (replaceDimS url))]) := by
        simp [handleAlbumSearch, ho, hc]
      rw [htr, lastfmQueries_cons_ack, lastfmQueries_color_tail]
    · have htr : handleAlbumSearch env q0 hq
          = .ack :: ((searchLoop env hq (searchQueriesOf env q0)).2
            ++ [.complete (.content
                (if env.norm q0 ≠ q0 then failMsgBoth q0 (env.norm q0) else failMsgOne q0))]) := by
        simp [handleAlbumSearch, ho, hc]
      rw [htr, lastfmQueries_cons_ack, lastfmQueries_completion_tail]

theorem failMsgBoth_contains_fst (q n : String) : containsStr (failMsgBoth q n) q :=
  ⟨"Could not find album art for `".data, ("` (also tried `" ++ n ++ "`).").data,
   by simp [failMsgBoth, String.data_append, List.append_assoc]⟩

theorem failMsgBoth_contains_snd (q n : String) : containsStr (failMsgBoth q n) n :=
  ⟨("Could not find album art for `" ++ q ++ "` (also tried `").data, "`).".data,
   by simp [failMsgBoth, String.data_append, List.append_assoc]⟩

/-- C6: when the diacritic-stripped form differs from the original query,
the original is attempted first and the stripped form is attempted as well
once the original finds no match, and when everything fails the delivered
failure message is the two-query message (which contains both query
strings); when the stripped form equals the original, exactly one query is
attempted and the failure message is the single-query message. -/
theorem C6_diacritic_fallback :
    ∀ (env : Env) (q0 : String) (hq : Bool),
      (env.norm q0 ≠ q0 → env.lastfmSearch q0 = .noMatch →
        lastfmQueries (handleAlbumSearch env q0 hq) = [q0, env.norm q0])
      ∧ (env.norm q0 ≠ q0 → (searchLoop env hq (searchQueriesOf env q0)).1 = .notFound →
        (handleAlbumSearch env q0 hq).getLast?
          = some (.complete (.content (failMsgBoth q0 (env.norm q0))))
        ∧ containsStr (failMsgBoth q0 (env.norm q0)) q0
        ∧ containsStr (failMsgBoth q0 (env.norm q0)) (env.norm q0))
      ∧ (env.norm q0 = q0 →
        lastfmQueries (handleAlbumSearch env q0 hq) = [q0]
        ∧ ((searchLoop env hq (searchQueriesOf env q0)).1 = .notFound →
          (handleAlbumSearch env q0 hq).getLast?
            = some (.complete (.content (failMsgOne q0))))) := by
  intro env q0 hq
  refine ⟨?_, ?_, ?_⟩
  · intro hne hq0
    have hqs : searchQueriesOf env q0 = [q0, env.norm q0] := by
      simp [searchQueriesOf, hne]
    have hloop : (searchLoop env hq [q0, env.norm q0]).2
        = .lastfmSearchCall q0 :: (searchLoop env hq [env.norm q0]).2 := by
      simp [searchLoop, hq0]
    rw [handleAlbumSearch_queries, hqs, hloop, lastfmQueries_cons_search,
      searchLoop_single_query]
  · intro hne hnf
    refine ⟨?_, failMsgBoth_contains_fst q0 (env.norm q0), failMsgBoth_contains_snd q0 (env.norm q0)⟩
    have htr : handleAlbumSearch env q0 hq
        = (.ack :: (searchLoop env hq (searchQueriesOf env q0)).2)
          ++ [.complete (.content (failMsgBoth q0 (env.norm q0)))] := by
      simp [handleAlbumSearch, hnf, hne]
    rw [htr, List.getLast?_concat]
  · intro heq
    have hqs : searchQueriesOf env q0 = [q0] := by
      simp [searchQueriesOf, heq]
    constructor
    · rw [handleAlbumSearch_queries, hqs, searchLoop_single_query]
    · intro hnf
      have htr : handleAlbumSearch env q0 hq
          = (.ack :: (searchLoop env hq (searchQueriesOf env q0)).2)
            ++ [.complete (.content (failMsgOne q0))] := by
        simp [handleAlbumSearch, hnf, heq]
      rw [htr, List.getLast?_concat]

/-- Environment for the C6 witness: no album ever matches, and
normalization strips the diacritics of the example query. -/
def envC6 : Env :=
  { lastfmSearch := fun _ => .noMatch,
    recentTracks := fun _ => .noTracks,
    itunes := fun _ _ => none,
    musicbrainz := fun _ _ => none,
    probe := fun _ => .netError,
    color := fun _ => none,
    norm := fun s => if s = "Déjà Vu" then "Deja Vu" else s }

/-- Witness for C6 at the spec's own example query. -/
theorem C6_witness :
    lastfmQueries (handleAlbumSearch envC6 "Déjà Vu" false) = ["Déjà Vu", "Deja Vu"]
    ∧ (handleAlbumSearch envC6 "Déjà Vu" false).getLast?
        = some (.complete (.content (failMsgBoth "Déjà Vu" "Deja Vu")))
    ∧ containsStr (failMsgBoth "Déjà Vu" "Deja Vu") "Déjà Vu"
    ∧ containsStr (failMsgBoth "Déjà Vu" "Deja Vu") "Deja Vu"
    ∧ lastfmQueries (handleAlbumSearch envC6 "q" false) = ["q"]
    ∧ (handleAlbumSearch envC6 "q" false).getLast?
        = some (.complete (.content (failMsgOne "q"))) := by
  have h1 := (C6_diacritic_fallback envC6 "Déjà Vu" false).1 (by decide) (by decide)
  have h2 := (C6_diacritic_fallback envC6 "Déjà Vu" false).2.1 (by decide) (by decide)
  have h3 := (C6_diacritic_fallback envC6 "q" false).2.2 (by decide)
  exact ⟨h1, h2.1, h2.2.1, h2.2.2, h3.1, h3.2 (by decide)⟩

/-! ### C8: registration round-trip -/

/-- C8: registering a username stores it under the Discord user id, a later
query for that id (as performed by the user mode of the cover command)
returns exactly that username, re-registration overwrites rather than
appends, and other ids are unaffected. -/
theorem C8_register_roundtrip :
    ∀ (store : Store) (id u u2 : String) (env : Env),
      kvGet (handleRegister store id u).1 id = some u
      ∧ kvGet (handleRegister (handleRegister store id u).1 id u2).1 id = some u2
      ∧ (∀ otherId, otherId ≠ id →
          kvGet (handleRegister store id u).1 otherId = kvGet store otherId)
      ∧ handleCover env (handleRegister store id u).1 ⟨[], id⟩
          = (.empty 204, handleUserScrobble env u false) := by
  intro store id u u2 env
  refine ⟨?_, ?_, ?_, ?_⟩
  · simp [handleRegister, kvGet, kvSet]
  · simp [handleRegister, kvGet, kvSet]
  · intro oid hne
    simp [handleRegister, kvGet, kvSet, hne]
  · simp [handleCover, coverSearchValue, hqOf, handleRegister, kvGet, kvSet]

/-- Witness for C8 at the spec's own example values. -/
theorem C8_witness :
    kvGet (handleRegister (fun _ => none) "123" "alice_fm").1 "123" = some "alice_fm"
    ∧ kvGet (handleRegister (handleRegister (fun _ => none) "123" "alice_fm").1
        "123" "alice2").1 "123" = some "alice2"
    ∧ kvGet (handleRegister (fun _ => none) "123" "alice_fm").1 "456"
        = kvGet (fun _ => none) "456" :=
  ⟨(C8_register_roundtrip (fun _ => none) "123" "alice_fm" "alice2" envThrow).1,
   (C8_register_roundtrip (fun _ => none) "123" "alice_fm" "alice2" envThrow).2.1,
   (C8_register_roundtrip (fun _ => none) "123" "alice_fm" "alice2" envThrow).2.2.1
     "456" (by decide)⟩

/-! ### C9: unknown commands and components are rejected explicitly -/

/-- C9: a verified command interaction whose name matches no case of the
dispatcher switch gets the explicit 400 "Unknown command" response, and a
component interaction whose custom id is neither countdown button gets the
explicit 400 "Unknown button interaction" response. -/
theorem C9_unknown_rejected :
    ∀ (handler : String → HttpResp) (ok : Nat → Bool) (name cid : String),
      (name ∉ commandNames →
        routePOST true (.command name) handler ok = .text 400 "Unknown command")
      ∧ (cid ≠ "cancel_countdown" → cid ≠ "start_countdown" →
        routePOST true (.component cid) handler ok
          = .text 400 "Unknown button interaction") := by
  intro handler ok name cid
  constructor
  · intro hmem
    simp [commandNames] at hmem
    obtain ⟨h1, h2, h3, h4, h5, h6, h7, h8, h9, h10⟩ := hmem
    simp [routePOST, h1, h2, h3, h4, h5, h6, h7, h8, h9, h10]
  · intro h1 h2
    simp [routePOST, handleCountdownInteraction, h1, h2]

/-- Witness for C9 at a concrete unknown command name and button id. -/
theorem C9_witness :
    routePOST true (.command "frobnicate") (fun _ => .empty 204) (fun _ => true)
      = .text 400 "Unknown command"
    ∧ routePOST true (.component "bogus_button") (fun _ => .empty 204) (fun _ => true)
      = .text 400 "Unknown button interaction" :=
  ⟨(C9_unknown_rejected (fun _ => .empty 204) (fun _ => true) "frobnicate" "bogus_button").1
     (by decide),
   (C9_unknown_rejected (fun _ => .empty 204) (fun _ => true) "frobnicate" "bogus_button").2
     (by decide) (by decide)⟩

/-! ### C10: search mode is independent of the registry -/

/-- C10: when the interaction carries a search option with a non-empty
value, the cover handler takes the album-search path, whose response and
network trace do not depend on the registered-username store at all — the
behaviour is identical under any two registry states. -/
theorem C10_search_mode_ignores_registry :
    ∀ (env : Env) (s1 s2 : Store) (i : CoverInteraction) (v : String),
      coverSearchValue i = some v →
      handleCover env s1 i = (.empty 204, handleAlbumSearch env v (hqOf i))
      ∧ handleCover env s1 i = handleCover env s2 i := by
  intro env s1 s2 i v hv
  constructor
  · simp [handleCover, hv]
  · simp [handleCover, hv]

/-- The spec's example search interaction, from a user id that may or may
not be registered. -/
def searchInteraction : CoverInteraction := ⟨[⟨"search", .str "Abbey Road"⟩], "123"⟩

/-- Witness for C10: with an empty registry and with a populated one, the
search-mode interaction produces identical behaviour. -/
theorem C10_witness :
    handleCover envThrow (fun _ => none) searchInteraction
      = handleCover envThrow (fun _ => some "alice_fm") searchInteraction :=
  (C10_search_mode_ignores_registry envThrow (fun _ => none) (fun _ => some "alice_fm")
    searchInteraction "Abbey Road" (by decide)).2

end Zorpheus
